import Mathlib

/-!
Verification of the tag-reconciliation logic of the Ansible module
`ah_ee_image.py` (collection `ansible.hub`, file
`plugins/modules/ah_ee_image.py`).

The module's `main` function parses the parameters `name`, `tags`, `append`
and `state`, then talks to the remote hub through three collaborators
(`AHAPIModule`, `AHPulpEERepository`, `AHUIEEImage`).  We embed `main` as a
pure function: the data obtained from the remote side (server version,
whether the repository exists, the digest resolved for the tag, the current
tags of the image) are passed as arguments, and the mutating calls issued to
the remote side (`create_tag`, `delete_tag`, `delete_image`) are collected in
an ordered trace of effects.  The final call to `exit_json` or `fail_json`
becomes the returned `Result`.

Python sets (`set(image_ui.tags)`, `set(tags)`) are modelled as
deduplicated lists; iteration order over a Python set is unspecified, the
deduplication order is one such order.  Set-level statements are phrased
through `List.toFinset`.
-/

namespace AhEeImage

/-- The `state` module parameter: `choices=["present", "absent"]`. -/
inductive AhState where
  | present
  | absent
deriving DecidableEq, Repr

/-- A mutating API call issued by `main` through `AHPulpEERepository`:
`create_tag(digest, tag)`, `delete_tag(digest, tag)` or
`delete_image(digest)`. -/
inductive Effect where
  | createTag (digest : String) (tag : String)
  | deleteTag (digest : String) (tag : String)
  | deleteImage (digest : String)
deriving DecidableEq, Repr

/-- How the invocation terminates: `module.fail_json(msg=...)` with its
message, or `module.exit_json(name=..., tag=..., type="image", changed=...)`
(the `type` field is the constant `"image"` and is omitted here). -/
inductive Result where
  | failJson (msg : String)
  | exitJson (name : String) (tag : String) (changed : Bool)
deriving DecidableEq, Repr

/-- Splits a list of characters at its last `':'`: returns
`some (before, after)` where the input is `before ++ ':' :: after` and
`after` is colon-free, or `none` when the input has no colon. -/
def rsplitColonAux : List Char → Option (List Char × List Char)
  | [] => none
  | c :: cs =>
    match rsplitColonAux cs with
    | some (pre, post) => some (c :: pre, post)
    | none => if c = ':' then some ([], cs) else none

/-- Python `s.rsplit(":", 1)`: the one-element list `[s]` when `s` has no
colon, otherwise the two parts around the last colon. -/
def pyRsplitColon (s : String) : List String :=
  match rsplitColonAux s.data with
  | none => [s]
  | some (pre, post) => [String.mk pre, String.mk post]

/-- `name = name_tag[0]` (line 119 of the source). -/
def ahName (nameWithTag : String) : String :=
  (pyRsplitColon nameWithTag).headD ""

/-- `tag = "latest" if len(name_tag) == 1 else name_tag[1]` (line 120). -/
def ahTag (nameWithTag : String) : String :=
  let nameTag := pyRsplitColon nameWithTag
  if nameTag.length = 1 then "latest" else nameTag.getD 1 ""

/-- Python string comparison `<` on lists of characters: lexicographic by
code point, a strict prefix is smaller. -/
def pyStrLtChars : List Char → List Char → Bool
  | [], [] => false
  | [], _ :: _ => true
  | _ :: _, [] => false
  | a :: as, b :: bs =>
    if a.toNat < b.toNat then true
    else if b.toNat < a.toNat then false
    else pyStrLtChars as bs

/-- Python string comparison `s < t` (used by the source's version gate
`vers < "4.3.2"`). -/
def pyStrLt (s t : String) : Bool :=
  pyStrLtChars s.data t.data

/-- The message of the version-gate failure (line 128). -/
def msgVersion (vers : String) : String :=
  "This module requires private automation hub version 4.3.2 or later. Your version is " ++ vers

/-- The message of the missing-repository failure (line 138). -/
def msgNoRepo (name : String) : String :=
  "The " ++ name ++ " repository does not exist."

/-- The message of the missing-tag failure (line 156). -/
def msgNoTag (tag name : String) : String :=
  "The image tag " ++ tag ++ " for the " ++ name ++ " repository does not exist."

/-- `tags_to_add = new_tags - current_tags` (line 170 of the source), where
`current_tags = set(image_ui.tags)` and `new_tags = set(tags)`: the
requested tags that are not current, as a duplicate-free list. -/
def tags_to_add (imageTags ts : List String) : List String :=
  ts.dedup.filter fun t => decide (t ∉ imageTags)

/-- `tags_to_remove = current_tags - new_tags` (line 184 of the source):
the current tags that are not requested, as a duplicate-free list. -/
def tags_to_remove (imageTags ts : List String) : List String :=
  imageTags.dedup.filter fun t => decide (t ∉ ts)

/-- Embedding of `main` of `ah_ee_image.py`.

Parameters of the module: `nameWithTag` (`name`), `tags`, `append`, `state`.
Data returned by the remote side: `serverVersion`
(`module.get_server_version()`), `repoExists` (`repository_pulp.exists`
after `get_object(name)`), `digest` and `imageTags` (`image_ui.digest` and
`image_ui.tags` after `get_tag(name, tag, vers)`); `digest = none` models
Python `None`.

The version gate is the source's `vers < "4.3.2"`, a plain string
comparison.  `set(...)` becomes list deduplication, `bool(s)` on a set
becomes list non-emptiness.

Modelled from the spec: the collaborators' sources are not part of the
sources at hand, so `delete_image` (called without `auto_exit=False`) is
modelled as issuing its deletion and terminating the invocation with
`changed = true`, per the spec's "delete the entire image (all its tags)
and report `changed = true`"; `create_tag`/`delete_tag` are called with
`auto_exit=False` and only issue their effect. -/
def mainRun (nameWithTag : String) (tags : Option (List String)) (append : Bool)
    (state : AhState) (serverVersion : String) (repoExists : Bool)
    (digest : Option String) (imageTags : List String) :
    Result × List Effect :=
  let name := ahName nameWithTag
  let tag := ahTag nameWithTag
  if pyStrLt serverVersion "4.3.2" then
    (.failJson (msgVersion serverVersion), [])
  else if !repoExists then
    (.failJson (msgNoRepo name), [])
  else
    match state, digest with
    | .absent, none => (.exitJson name tag false, [])
    | .absent, some d => (.exitJson name tag true, [.deleteImage d])
    | .present, none => (.failJson (msgNoTag tag name), [])
    | .present, some d =>
      match tags with
      | none =>
        if append then (.exitJson name tag false, [])
        else (.exitJson name tag true, [.deleteImage d])
      | some ts =>
        if ts.isEmpty then
          if append then (.exitJson name tag false, [])
          else (.exitJson name tag true, [.deleteImage d])
        else
          let toAdd := tags_to_add imageTags ts
          let addEffects := toAdd.map (Effect.createTag d)
          if append then
            (.exitJson name tag (!toAdd.isEmpty), addEffects)
          else
            let toRemove := tags_to_remove imageTags ts
            let removeEffects := toRemove.map (Effect.deleteTag d)
            (.exitJson name tag (!toRemove.isEmpty || !toAdd.isEmpty),
              addEffects ++ removeEffects)

/-- The effect of one mutating call on the remote tag set of the image:
`create_tag` adds the tag, `delete_tag` removes it, `delete_image` removes
the image with all its tags. -/
def applyEffect (s : Finset String) : Effect → Finset String
  | .createTag _ t => insert t s
  | .deleteTag _ t => s.erase t
  | .deleteImage _ => ∅

/-- The remote tag set after a trace of mutating calls. -/
def applyEffects (s : Finset String) (effs : List Effect) : Finset String :=
  effs.foldl applyEffect s

/-- The tag created by an effect, when it is a `create_tag` call. -/
def Effect.created : Effect → Option String
  | .createTag _ t => some t
  | _ => none

/-- The tag deleted by an effect, when it is a `delete_tag` call. -/
def Effect.deleted : Effect → Option String
  | .deleteTag _ t => some t
  | _ => none

/-- The set of tags added by a trace of mutating calls. -/
def createdTags (effs : List Effect) : Finset String :=
  (effs.filterMap Effect.created).toFinset

/-- The set of tags removed (by `delete_tag`) in a trace of mutating calls. -/
def deletedTags (effs : List Effect) : Finset String :=
  (effs.filterMap Effect.deleted).toFinset

/-- Digit characters of a version component read as a decimal number. -/
def digitsToNat (cs : List Char) : Nat :=
  cs.foldl (fun n c => n * 10 + (c.toNat - 48)) 0

/-- Splits a list of characters on `'.'`. -/
def splitDotAux : List Char → List Char → List (List Char)
  | [], acc => [acc.reverse]
  | c :: cs, acc =>
    if c = '.' then acc.reverse :: splitDotAux cs [] else splitDotAux cs (c :: acc)

/-- Numeric components of a dotted version string, e.g. `"4.10.2"` to
`[4, 10, 2]`. -/
def versionNums (s : String) : List Nat :=
  (splitDotAux s.data []).map digitsToNat

/-- Modelled from the spec: the spec's version order ("Minimum supported
remote server version: `4.3.2`", "4.3.2 or later") is the usual order on
dotted numeric versions, compared component by component; the source of
`get_server_version` is not part of the sources at hand.  This compares two
component lists lexicographically. -/
def specVersionLt : List Nat → List Nat → Bool
  | _, [] => false
  | [], _ :: _ => true
  | a :: as, b :: bs =>
    if a < b then true else if b < a then false else specVersionLt as bs

/-- A tag is scheduled for addition exactly when it is requested but not
current. -/
theorem mem_tags_to_add (imageTags ts : List String) (t : String) :
    t ∈ tags_to_add imageTags ts ↔ t ∈ ts ∧ t ∉ imageTags := by
  simp [tags_to_add, List.mem_filter, List.mem_dedup]

/-- A tag is scheduled for removal exactly when it is current but not
requested. -/
theorem mem_tags_to_remove (imageTags ts : List String) (t : String) :
    t ∈ tags_to_remove imageTags ts ↔ t ∈ imageTags ∧ t ∉ ts := by
  simp [tags_to_remove, List.mem_filter, List.mem_dedup]

/-- As a set, `tags_to_add` is the set difference requested − current. -/
theorem toFinset_tags_to_add (imageTags ts : List String) :
    (tags_to_add imageTags ts).toFinset = ts.toFinset \ imageTags.toFinset := by
  ext t
  simp [mem_tags_to_add, Finset.mem_sdiff]

/-- As a set, `tags_to_remove` is the set difference current − requested. -/
theorem toFinset_tags_to_remove (imageTags ts : List String) :
    (tags_to_remove imageTags ts).toFinset = imageTags.toFinset \ ts.toFinset := by
  ext t
  simp [mem_tags_to_remove, Finset.mem_sdiff]

/-- `tags_to_add` is empty exactly when the requested tags are all current. -/
theorem tags_to_add_eq_nil_iff (imageTags ts : List String) :
    tags_to_add imageTags ts = [] ↔ ts.toFinset ⊆ imageTags.toFinset := by
  rw [← List.toFinset_eq_empty_iff, toFinset_tags_to_add,
    Finset.sdiff_eq_empty_iff_subset]

/-- `tags_to_remove` is empty exactly when the current tags are all
requested. -/
theorem tags_to_remove_eq_nil_iff (imageTags ts : List String) :
    tags_to_remove imageTags ts = [] ↔ imageTags.toFinset ⊆ ts.toFinset := by
  rw [← List.toFinset_eq_empty_iff, toFinset_tags_to_remove,
    Finset.sdiff_eq_empty_iff_subset]

/-- The `changed` flag of append mode, `bool(tags_to_add)`, decides that the
requested tags are not a subset of the current ones. -/
theorem changed_append_eq (imageTags ts : List String) :
    (!(tags_to_add imageTags ts).isEmpty)
      = decide (¬ ts.toFinset ⊆ imageTags.toFinset) := by
  by_cases h : ts.toFinset ⊆ imageTags.toFinset
  · simp [(tags_to_add_eq_nil_iff _ _).mpr h, h]
  · have h2 : tags_to_add imageTags ts ≠ [] :=
      fun hn => h ((tags_to_add_eq_nil_iff _ _).mp hn)
    simp [h, List.isEmpty_iff, h2]

/-- The `changed` flag of replace mode,
`bool(tags_to_remove) or bool(tags_to_add)`, decides that the current and
requested tag sets differ. -/
theorem changed_replace_eq (imageTags ts : List String) :
    (!(tags_to_remove imageTags ts).isEmpty || !(tags_to_add imageTags ts).isEmpty)
      = decide (imageTags.toFinset ≠ ts.toFinset) := by
  by_cases h : imageTags.toFinset = ts.toFinset
  · simp [(tags_to_add_eq_nil_iff _ _).mpr (le_of_eq h.symm),
      (tags_to_remove_eq_nil_iff _ _).mpr (le_of_eq h), h]
  · have h3 : ¬ (imageTags.toFinset ⊆ ts.toFinset ∧ ts.toFinset ⊆ imageTags.toFinset) :=
      fun hh => h (Finset.Subset.antisymm hh.1 hh.2)
    rcases not_and_or.mp h3 with h4 | h4
    · have h5 : tags_to_remove imageTags ts ≠ [] :=
        fun hn => h4 ((tags_to_remove_eq_nil_iff _ _).mp hn)
      simp [h, List.isEmpty_iff, h5]
    · have h5 : tags_to_add imageTags ts ≠ [] :=
        fun hn => h4 ((tags_to_add_eq_nil_iff _ _).mp hn)
      simp [h, List.isEmpty_iff, h5]

theorem applyEffects_cons (s : Finset String) (e : Effect) (es : List Effect) :
    applyEffects s (e :: es) = applyEffects (applyEffect s e) es := rfl

theorem applyEffects_append (s : Finset String) (l1 l2 : List Effect) :
    applyEffects s (l1 ++ l2) = applyEffects (applyEffects s l1) l2 := by
  simp [applyEffects]

/-- A run of `create_tag` calls adds exactly the listed tags. -/
theorem applyEffects_createList (s : Finset String) (d : String) (l : List String) :
    applyEffects s (l.map (Effect.createTag d)) = s ∪ l.toFinset := by
  induction l generalizing s with
  | nil => simp [applyEffects]
  | cons t l ih =>
    simp only [List.map_cons, applyEffects_cons, applyEffect, ih, List.toFinset_cons]
    rw [Finset.insert_union, Finset.union_insert]

/-- A run of `delete_tag` calls removes exactly the listed tags. -/
theorem applyEffects_deleteList (s : Finset String) (d : String) (l : List String) :
    applyEffects s (l.map (Effect.deleteTag d)) = s \ l.toFinset := by
  induction l generalizing s with
  | nil => simp [applyEffects]
  | cons t l ih =>
    simp only [List.map_cons, applyEffects_cons, applyEffect, ih, List.toFinset_cons]
    ext x
    simp only [Finset.mem_sdiff, Finset.mem_erase, Finset.mem_insert]
    tauto

theorem createdTags_append (l1 l2 : List Effect) :
    createdTags (l1 ++ l2) = createdTags l1 ∪ createdTags l2 := by
  simp [createdTags, List.filterMap_append]

theorem deletedTags_append (l1 l2 : List Effect) :
    deletedTags (l1 ++ l2) = deletedTags l1 ∪ deletedTags l2 := by
  simp [deletedTags, List.filterMap_append]

theorem createdTags_createList (d : String) (l : List String) :
    createdTags (l.map (Effect.createTag d)) = l.toFinset := by
  have h : (Effect.created ∘ Effect.createTag d) = some := by
    funext t; rfl
  rw [createdTags, List.filterMap_map, h, List.filterMap_some]

theorem createdTags_deleteList (d : String) (l : List String) :
    createdTags (l.map (Effect.deleteTag d)) = ∅ := by
  have h : (Effect.created ∘ Effect.deleteTag d) = fun _ => (none : Option String) := by
    funext t; rfl
  rw [createdTags, List.filterMap_map, h]
  simp

theorem deletedTags_createList (d : String) (l : List String) :
    deletedTags (l.map (Effect.createTag d)) = ∅ := by
  have h : (Effect.deleted ∘ Effect.createTag d) = fun _ => (none : Option String) := by
    funext t; rfl
  rw [deletedTags, List.filterMap_map, h]
  simp

theorem deletedTags_deleteList (d : String) (l : List String) :
    deletedTags (l.map (Effect.deleteTag d)) = l.toFinset := by
  have h : (Effect.deleted ∘ Effect.deleteTag d) = some := by
    funext t; rfl
  rw [deletedTags, List.filterMap_map, h, List.filterMap_some]

/-- What `main` does on the tag-reconciliation path: `state=present`,
version gate passed, repository exists, digest resolved, non-empty
requested tag list (lines 166-193 of the source). -/
theorem mainRun_reconcile (n : String) (ts : List String) (ap : Bool) (v : String)
    (d : String) (c : List String) (hv : pyStrLt v "4.3.2" = false)
    (hts : ts.isEmpty = false) :
    mainRun n (some ts) ap .present v true (some d) c =
      if ap then
        (.exitJson (ahName n) (ahTag n) (!(tags_to_add c ts).isEmpty),
          (tags_to_add c ts).map (Effect.createTag d))
      else
        (.exitJson (ahName n) (ahTag n)
            (!(tags_to_remove c ts).isEmpty || !(tags_to_add c ts).isEmpty),
          (tags_to_add c ts).map (Effect.createTag d)
            ++ (tags_to_remove c ts).map (Effect.deleteTag d)) := by
  cases ap <;> simp [mainRun, hv, hts]

/-- `rsplitColonAux` returns `none` exactly on colon-free inputs. -/
theorem rsplitColonAux_none (cs : List Char) :
    rsplitColonAux cs = none ↔ ':' ∉ cs := by
  induction cs with
  | nil => simp [rsplitColonAux]
  | cons c cs ih =>
    cases h : rsplitColonAux cs with
    | none =>
      by_cases hc : c = ':'
      · subst hc
        simp [rsplitColonAux, h]
      · have h5 : ':' ∉ c :: cs := by
          simp only [List.mem_cons]
          rintro (hh | hh)
          · exact hc hh.symm
          · exact ih.mp h hh
        simp [rsplitColonAux, h, hc, h5]
    | some p =>
      obtain ⟨pre, post⟩ := p
      have hmem : ':' ∈ cs := by
        by_contra hn
        rw [ih.mpr hn] at h
        cases h
      simp [rsplitColonAux, h, hmem]

/-- When `rsplitColonAux` splits, it splits at the last colon: the input is
`pre ++ ':' :: post` and `post` is colon-free. -/
theorem rsplitColonAux_some (cs pre post : List Char)
    (h : rsplitColonAux cs = some (pre, post)) :
    cs = pre ++ ':' :: post ∧ ':' ∉ post := by
  induction cs generalizing pre post with
  | nil => cases h
  | cons c cs ih =>
    cases h2 : rsplitColonAux cs with
    | some p =>
      obtain ⟨p1, p2⟩ := p
      simp only [rsplitColonAux, h2, Option.some.injEq, Prod.mk.injEq] at h
      obtain ⟨h3, h4⟩ := h
      obtain ⟨hcs, hpost⟩ := ih p1 p2 h2
      subst h3
      subst h4
      exact ⟨by rw [hcs]; rfl, hpost⟩
    | none =>
      simp only [rsplitColonAux, h2] at h
      by_cases hc : c = ':'
      · subst hc
        rw [if_pos rfl] at h
        simp only [Option.some.injEq, Prod.mk.injEq] at h
        obtain ⟨h3, h4⟩ := h
        subst h3
        subst h4
        exact ⟨rfl, (rsplitColonAux_none cs).mp h2⟩
      · simp [hc] at h

/-- C7 (counterexample): for the input `":v1"` the derived repository name
is the empty string, refuting the invariant that the repository name is
always non-empty. -/
theorem c7_empty_name_counterexample : ahName ":v1" = "" := by decide

/-- C7 (amended): the image reference is derived by splitting the input on
the last colon: with no colon the name is the whole input and the tag
defaults to `"latest"`; with a colon the input is `name ++ ":" ++ tag` with
a colon-free tag.  The repository name may be empty (for instance for an
input that starts with its last colon). -/
theorem c7_split_on_last_colon (s : String) :
    (':' ∉ s.data → ahName s = s ∧ ahTag s = "latest")
    ∧ (':' ∈ s.data → ahName s ++ ":" ++ ahTag s = s ∧ ':' ∉ (ahTag s).data) := by
  constructor
  · intro h
    have h2 : rsplitColonAux s.data = none := (rsplitColonAux_none _).mpr h
    simp [ahName, ahTag, pyRsplitColon, h2]
  · intro h
    cases h2 : rsplitColonAux s.data with
    | none =>
      have := (rsplitColonAux_none s.data).mp h2
      contradiction
    | some p =>
      obtain ⟨pre, post⟩ := p
      obtain ⟨hcs, hpost⟩ := rsplitColonAux_some s.data pre post h2
      constructor
      · apply String.ext
        simp only [String.data_append, ahName, ahTag, pyRsplitColon, h2]
        simp [hcs]
      · simp [ahTag, pyRsplitColon, h2, hpost]

/-- C7 (witness): the two branches of the splitting theorem at concrete
inputs. -/
theorem c7_split_on_last_colon_witness :
    (ahName "repo" = "repo" ∧ ahTag "repo" = "latest")
    ∧ (ahName "a:b:v2" ++ ":" ++ ahTag "a:b:v2" = "a:b:v2"
        ∧ ':' ∉ (ahTag "a:b:v2").data) :=
  ⟨(c7_split_on_last_colon "repo").1 (by decide),
    (c7_split_on_last_colon "a:b:v2").2 (by decide)⟩

/-- Union with a difference collapses: `a ∪ (b \ a) = a ∪ b` and removing
`a \ b` from `a ∪ b` leaves exactly `b`. -/
theorem union_sdiff_cancel (a b : Finset String) : (a ∪ b) \ (a \ b) = b := by
  ext x
  simp only [Finset.mem_sdiff, Finset.mem_union]
  tauto

/-- C1: the version gate is a plain string comparison (`vers < "4.3.2"`),
so the server version `"4.10.0"`, which is later than `4.3.2` in version
order, is rejected with the hard failure of the gate (and no mutation),
contradicting "if the version is 4.3.2 or later the version check does not
fail". -/
theorem c1_version_gate_string_compare :
    (mainRun "repo:v1" none true .present "4.10.0" true (some "d") []).1
        = .failJson (msgVersion "4.10.0")
    ∧ (mainRun "repo:v1" none true .present "4.10.0" true (some "d") []).2 = []
    ∧ specVersionLt (versionNums "4.3.2") (versionNums "4.10.0") = true := by
  decide

/-- C2: with `state=present`, a resolved digest, a non-empty requested tag
list and `append=true`, the module exits with `changed` true exactly when
the requested tags are not all current, issues exactly one `create_tag` per
tag in requested − current and nothing else, removes no tag, and the
resulting tag set is current ∪ requested. -/
theorem c2_append_mode (n v d : String) (ts c : List String)
    (hv : pyStrLt v "4.3.2" = false) (hts : ts ≠ []) :
    (mainRun n (some ts) true .present v true (some d) c).1
        = .exitJson (ahName n) (ahTag n) (decide (¬ ts.toFinset ⊆ c.toFinset))
    ∧ (mainRun n (some ts) true .present v true (some d) c).2
        = (tags_to_add c ts).map (Effect.createTag d)
    ∧ createdTags (mainRun n (some ts) true .present v true (some d) c).2
        = ts.toFinset \ c.toFinset
    ∧ deletedTags (mainRun n (some ts) true .present v true (some d) c).2 = ∅
    ∧ applyEffects c.toFinset (mainRun n (some ts) true .present v true (some d) c).2
        = c.toFinset ∪ ts.toFinset := by
  have hts2 : ts.isEmpty = false := by
    cases ts
    · exact absurd rfl hts
    · rfl
  rw [mainRun_reconcile n ts true v d c hv hts2]
  refine ⟨?_, ?_, ?_, ?_, ?_⟩ <;>
    simp [changed_append_eq, createdTags_createList, deletedTags_createList,
      applyEffects_createList, toFinset_tags_to_add, Finset.union_sdiff_self_eq_union]

/-- C2 (witness): `current = {v1, v2}`, `requested = [v2, v3]`,
`append = true`. -/
theorem c2_append_mode_witness :
    pyStrLt "4.3.2" "4.3.2" = false ∧ (["v2", "v3"] : List String) ≠ []
    ∧ ((mainRun "r:t" (some ["v2", "v3"]) true .present "4.3.2" true (some "sha") ["v1", "v2"]).1
          = .exitJson (ahName "r:t") (ahTag "r:t")
              (decide (¬ (["v2", "v3"] : List String).toFinset ⊆ (["v1", "v2"] : List String).toFinset))
      ∧ (mainRun "r:t" (some ["v2", "v3"]) true .present "4.3.2" true (some "sha") ["v1", "v2"]).2
          = (tags_to_add ["v1", "v2"] ["v2", "v3"]).map (Effect.createTag "sha")
      ∧ createdTags (mainRun "r:t" (some ["v2", "v3"]) true .present "4.3.2" true (some "sha") ["v1", "v2"]).2
          = (["v2", "v3"] : List String).toFinset \ (["v1", "v2"] : List String).toFinset
      ∧ deletedTags (mainRun "r:t" (some ["v2", "v3"]) true .present "4.3.2" true (some "sha") ["v1", "v2"]).2 = ∅
      ∧ applyEffects (["v1", "v2"] : List String).toFinset
            (mainRun "r:t" (some ["v2", "v3"]) true .present "4.3.2" true (some "sha") ["v1", "v2"]).2
          = (["v1", "v2"] : List String).toFinset ∪ (["v2", "v3"] : List String).toFinset) :=
  ⟨by decide, by decide,
    c2_append_mode "r:t" "4.3.2" "sha" ["v2", "v3"] ["v1", "v2"] (by decide) (by decide)⟩

/-- C3: with `state=present`, a resolved digest, a non-empty requested tag
list and `append=false`, the module adds exactly requested − current,
removes exactly current − requested, issues all additions before all
removals, ends with tag set equal to requested, and reports `changed` true
exactly when current ≠ requested. -/
theorem c3_replace_mode (n v d : String) (ts c : List String)
    (hv : pyStrLt v "4.3.2" = false) (hts : ts ≠ []) :
    (mainRun n (some ts) false .present v true (some d) c).1
        = .exitJson (ahName n) (ahTag n) (decide (c.toFinset ≠ ts.toFinset))
    ∧ (mainRun n (some ts) false .present v true (some d) c).2
        = (tags_to_add c ts).map (Effect.createTag d)
            ++ (tags_to_remove c ts).map (Effect.deleteTag d)
    ∧ createdTags (mainRun n (some ts) false .present v true (some d) c).2
        = ts.toFinset \ c.toFinset
    ∧ deletedTags (mainRun n (some ts) false .present v true (some d) c).2
        = c.toFinset \ ts.toFinset
    ∧ applyEffects c.toFinset (mainRun n (some ts) false .present v true (some d) c).2
        = ts.toFinset := by
  have hts2 : ts.isEmpty = false := by
    cases ts
    · exact absurd rfl hts
    · rfl
  rw [mainRun_reconcile n ts false v d c hv hts2]
  refine ⟨?_, ?_, ?_, ?_, ?_⟩
  · simp [changed_replace_eq]
  · simp
  · simp [createdTags_append, createdTags_createList, createdTags_deleteList,
      toFinset_tags_to_add]
  · simp [deletedTags_append, deletedTags_createList, deletedTags_deleteList,
      toFinset_tags_to_remove]
  · simp only [if_neg Bool.false_ne_true, applyEffects_append,
      applyEffects_createList, applyEffects_deleteList,
      toFinset_tags_to_add, toFinset_tags_to_remove,
      Finset.union_sdiff_self_eq_union]
    exact union_sdiff_cancel c.toFinset ts.toFinset

/-- C3 (witness): `current = {v1, v2}`, `requested = [v2, v3]`,
`append = false`. -/
theorem c3_replace_mode_witness :
    pyStrLt "4.3.2" "4.3.2" = false ∧ (["v2", "v3"] : List String) ≠ []
    ∧ ((mainRun "r:t" (some ["v2", "v3"]) false .present "4.3.2" true (some "sha") ["v1", "v2"]).1
          = .exitJson (ahName "r:t") (ahTag "r:t")
              (decide ((["v1", "v2"] : List String).toFinset ≠ (["v2", "v3"] : List String).toFinset))
      ∧ (mainRun "r:t" (some ["v2", "v3"]) false .present "4.3.2" true (some "sha") ["v1", "v2"]).2
          = (tags_to_add ["v1", "v2"] ["v2", "v3"]).map (Effect.createTag "sha")
              ++ (tags_to_remove ["v1", "v2"] ["v2", "v3"]).map (Effect.deleteTag "sha")
      ∧ createdTags (mainRun "r:t" (some ["v2", "v3"]) false .present "4.3.2" true (some "sha") ["v1", "v2"]).2
          = (["v2", "v3"] : List String).toFinset \ (["v1", "v2"] : List String).toFinset
      ∧ deletedTags (mainRun "r:t" (some ["v2", "v3"]) false .present "4.3.2" true (some "sha") ["v1", "v2"]).2
          = (["v1", "v2"] : List String).toFinset \ (["v2", "v3"] : List String).toFinset
      ∧ applyEffects (["v1", "v2"] : List String).toFinset
            (mainRun "r:t" (some ["v2", "v3"]) false .present "4.3.2" true (some "sha") ["v1", "v2"]).2
          = (["v2", "v3"] : List String).toFinset) :=
  ⟨by decide, by decide,
    c3_replace_mode "r:t" "4.3.2" "sha" ["v2", "v3"] ["v1", "v2"] (by decide) (by decide)⟩

/-- C4: with `state=absent` on an existing repository (version gate
passed): with no resolved digest the module exits with `changed=false` and
no mutation; with a resolved digest it issues exactly one `delete_image`
(hence no tag addition or removal) and reports `changed=true`. -/
theorem c4_absent (n v d : String) (tags : Option (List String)) (ap : Bool)
    (c : List String) (hv : pyStrLt v "4.3.2" = false) :
    mainRun n tags ap .absent v true none c
        = (.exitJson (ahName n) (ahTag n) false, [])
    ∧ mainRun n tags ap .absent v true (some d) c
        = (.exitJson (ahName n) (ahTag n) true, [.deleteImage d]) := by
  constructor <;> simp [mainRun, hv]

/-- C4 (witness): a concrete `state=absent` invocation in both digest
cases. -/
theorem c4_absent_witness :
    pyStrLt "4.3.2" "4.3.2" = false
    ∧ (mainRun "r:t" (some ["v1"]) true .absent "4.3.2" true none ["v1"]
          = (.exitJson (ahName "r:t") (ahTag "r:t") false, [])
      ∧ mainRun "r:t" (some ["v1"]) true .absent "4.3.2" true (some "sha") ["v1"]
          = (.exitJson (ahName "r:t") (ahTag "r:t") true, [.deleteImage "sha"])) :=
  ⟨by decide, c4_absent "r:t" "4.3.2" "sha" (some ["v1"]) true ["v1"] (by decide)⟩

/-- C5: with `state=present` on an existing repository and no resolved
digest, the module fails with the "image tag does not exist" message and
performs no mutation (in particular it never creates an image). -/
theorem c5_present_no_digest (n v : String) (tags : Option (List String))
    (ap : Bool) (c : List String) (hv : pyStrLt v "4.3.2" = false) :
    mainRun n tags ap .present v true none c
      = (.failJson (msgNoTag (ahTag n) (ahName n)), []) := by
  simp [mainRun, hv]

/-- C5 (witness): a concrete `state=present` invocation with an unresolved
tag. -/
theorem c5_present_no_digest_witness :
    pyStrLt "4.3.2" "4.3.2" = false
    ∧ mainRun "r:t" (some ["v1"]) true .present "4.3.2" true none []
        = (.failJson (msgNoTag (ahTag "r:t") (ahName "r:t")), []) :=
  ⟨by decide, c5_present_no_digest "r:t" "4.3.2" (some ["v1"]) true [] (by decide)⟩

/-- C6: with `state=present`, a resolved digest and an unset (`none`) or
empty requested tag list: in append mode the module exits with
`changed=false` and no mutation; in replace mode it issues exactly one
`delete_image`. -/
theorem c6_empty_tags (n v d : String) (tags : Option (List String))
    (c : List String) (hv : pyStrLt v "4.3.2" = false)
    (htags : tags = none ∨ tags = some []) :
    mainRun n tags true .present v true (some d) c
        = (.exitJson (ahName n) (ahTag n) false, [])
    ∧ mainRun n tags false .present v true (some d) c
        = (.exitJson (ahName n) (ahTag n) true, [.deleteImage d]) := by
  rcases htags with h | h <;> subst h <;> exact ⟨by simp [mainRun, hv], by simp [mainRun, hv]⟩

/-- C6 (witness): a concrete empty-tag-list invocation in both modes. -/
theorem c6_empty_tags_witness :
    pyStrLt "4.3.2" "4.3.2" = false
    ∧ ((none : Option (List String)) = none ∨ (none : Option (List String)) = some [])
    ∧ (mainRun "r:t" none true .present "4.3.2" true (some "sha") ["v1"]
          = (.exitJson (ahName "r:t") (ahTag "r:t") false, [])
      ∧ mainRun "r:t" none false .present "4.3.2" true (some "sha") ["v1"]
          = (.exitJson (ahName "r:t") (ahTag "r:t") true, [.deleteImage "sha"])) :=
  ⟨by decide, Or.inl rfl,
    c6_empty_tags "r:t" "4.3.2" "sha" none ["v1"] (by decide) (Or.inl rfl)⟩

theorem sdiff_inter_sdiff_empty (a b : Finset String) : (b \ a) ∩ (a \ b) = ∅ := by
  ext x
  simp only [Finset.mem_inter, Finset.mem_sdiff, Finset.not_mem_empty, iff_false]
  tauto

theorem inter_inter_sdiff_right_empty (a b : Finset String) :
    (a ∩ b) ∩ (b \ a) = ∅ := by
  ext x
  simp only [Finset.mem_inter, Finset.mem_sdiff, Finset.not_mem_empty, iff_false]
  tauto

theorem inter_inter_sdiff_left_empty (a b : Finset String) :
    (a ∩ b) ∩ (a \ b) = ∅ := by
  ext x
  simp only [Finset.mem_inter, Finset.mem_sdiff, Finset.not_mem_empty, iff_false]
  tauto

/-- C8: idempotence of the reconciliation.  If one run (on current tags
`c`) leaves the remote tag set at the value `c2`, a second run of the same
`(requested_tags, append)` on `c2` computes an empty add list, adds
nothing, removes nothing, issues no call at all, and reports
`changed=false`. -/
theorem c8_idempotent (n v d : String) (ap : Bool) (ts c c2 : List String)
    (hv : pyStrLt v "4.3.2" = false) (hts : ts ≠ [])
    (hc2 : c2.toFinset
        = applyEffects c.toFinset (mainRun n (some ts) ap .present v true (some d) c).2) :
    tags_to_add c2 ts = []
    ∧ createdTags (mainRun n (some ts) ap .present v true (some d) c2).2 = ∅
    ∧ deletedTags (mainRun n (some ts) ap .present v true (some d) c2).2 = ∅
    ∧ (mainRun n (some ts) ap .present v true (some d) c2).1
        = .exitJson (ahName n) (ahTag n) false
    ∧ (mainRun n (some ts) ap .present v true (some d) c2).2 = [] := by
  have hts2 : ts.isEmpty = false := by
    cases ts
    · exact absurd rfl hts
    · rfl
  rw [mainRun_reconcile n ts ap v d c hv hts2] at hc2
  rw [mainRun_reconcile n ts ap v d c2 hv hts2]
  cases ap
  · simp only [Bool.false_eq_true, if_false, applyEffects_append,
      applyEffects_createList, applyEffects_deleteList, toFinset_tags_to_add,
      toFinset_tags_to_remove, Finset.union_sdiff_self_eq_union,
      union_sdiff_cancel] at hc2
    have hadd : tags_to_add c2 ts = [] :=
      (tags_to_add_eq_nil_iff _ _).mpr (le_of_eq hc2.symm)
    have hrem : tags_to_remove c2 ts = [] :=
      (tags_to_remove_eq_nil_iff _ _).mpr (le_of_eq hc2)
    simp [hadd, hrem, createdTags, deletedTags]
  · simp only [if_true, applyEffects_createList, toFinset_tags_to_add,
      Finset.union_sdiff_self_eq_union] at hc2
    have hadd : tags_to_add c2 ts = [] :=
      (tags_to_add_eq_nil_iff _ _).mpr
        (by rw [hc2]; exact Finset.subset_union_right)
    simp [hadd, createdTags, deletedTags]

/-- C8 (witness): `current = {v1}`, `requested = [v2]`, `append = false`;
the first run leaves the tag set `{v2}`, the second run on `{v2}` is a
no-op. -/
theorem c8_idempotent_witness :
    pyStrLt "4.3.2" "4.3.2" = false ∧ (["v2"] : List String) ≠ []
    ∧ (["v2"] : List String).toFinset
        = applyEffects (["v1"] : List String).toFinset
            (mainRun "r:t" (some ["v2"]) false .present "4.3.2" true (some "sha") ["v1"]).2
    ∧ (tags_to_add ["v2"] ["v2"] = []
      ∧ createdTags (mainRun "r:t" (some ["v2"]) false .present "4.3.2" true (some "sha") ["v2"]).2 = ∅
      ∧ deletedTags (mainRun "r:t" (some ["v2"]) false .present "4.3.2" true (some "sha") ["v2"]).2 = ∅
      ∧ (mainRun "r:t" (some ["v2"]) false .present "4.3.2" true (some "sha") ["v2"]).1
          = .exitJson (ahName "r:t") (ahTag "r:t") false
      ∧ (mainRun "r:t" (some ["v2"]) false .present "4.3.2" true (some "sha") ["v2"]).2 = []) :=
  ⟨by decide, by decide, by decide,
    c8_idempotent "r:t" "4.3.2" "sha" false ["v2"] ["v1"] ["v2"]
      (by decide) (by decide) (by decide)⟩

/-- C9: set semantics of the tag comparison.  Two invocations whose current
tag lists have the same underlying set and whose requested tag lists have
the same underlying set produce the same terminal result, the same set of
added tags and the same set of removed tags (so ordering and duplicates are
irrelevant); and the comparison is case-sensitive: with current tag `v1`
and requested tag `V1` in replace mode, `V1` is added and `v1` is
removed. -/
theorem c9_set_semantics :
    (∀ (n v d : String) (ap : Bool) (c1 c2 r1 r2 : List String),
        c1.toFinset = c2.toFinset → r1.toFinset = r2.toFinset →
          (mainRun n (some r1) ap .present v true (some d) c1).1
              = (mainRun n (some r2) ap .present v true (some d) c2).1
          ∧ createdTags (mainRun n (some r1) ap .present v true (some d) c1).2
              = createdTags (mainRun n (some r2) ap .present v true (some d) c2).2
          ∧ deletedTags (mainRun n (some r1) ap .present v true (some d) c1).2
              = deletedTags (mainRun n (some r2) ap .present v true (some d) c2).2)
    ∧ mainRun "r:t" (some ["V1"]) false .present "4.3.2" true (some "d") ["v1"]
        = (.exitJson "r" "t" true, [.createTag "d" "V1", .deleteTag "d" "v1"]) := by
  constructor
  · intro n v d ap c1 c2 r1 r2 hc hr
    cases hv : pyStrLt v "4.3.2" with
    | true => simp [mainRun, hv]
    | false =>
      by_cases hr1 : r1 = []
      · have hr2 : r2 = [] := by
          rw [← List.toFinset_eq_empty_iff, ← hr, hr1, List.toFinset_nil]
        subst hr1
        subst hr2
        cases ap <;> simp [mainRun, hv]
      · have hr2 : r2 ≠ [] := by
          intro h0
          exact hr1 (by rw [← List.toFinset_eq_empty_iff, hr, h0, List.toFinset_nil])
        have e1 : r1.isEmpty = false := by
          cases r1
          · exact absurd rfl hr1
          · rfl
        have e2 : r2.isEmpty = false := by
          cases r2
          · exact absurd rfl hr2
          · rfl
        rw [mainRun_reconcile n r1 ap v d c1 hv e1,
          mainRun_reconcile n r2 ap v d c2 hv e2]
        cases ap
        · simp [changed_replace_eq, createdTags_append, createdTags_createList,
            createdTags_deleteList, deletedTags_append, deletedTags_createList,
            deletedTags_deleteList, toFinset_tags_to_add, toFinset_tags_to_remove,
            hc, hr]
        · simp [changed_append_eq, createdTags_createList, deletedTags_createList,
            toFinset_tags_to_add, hc, hr]
  · decide

/-- C9 (witness): reordered and duplicated inputs with the same underlying
sets give the same result, added set and removed set. -/
theorem c9_set_semantics_witness :
    (["v1", "v1", "v2"] : List String).toFinset = (["v2", "v1"] : List String).toFinset
    ∧ (["v3", "v3"] : List String).toFinset = (["v3"] : List String).toFinset
    ∧ ((mainRun "r:t" (some ["v3", "v3"]) true .present "4.3.2" true (some "sha") ["v1", "v1", "v2"]).1
          = (mainRun "r:t" (some ["v3"]) true .present "4.3.2" true (some "sha") ["v2", "v1"]).1
      ∧ createdTags (mainRun "r:t" (some ["v3", "v3"]) true .present "4.3.2" true (some "sha") ["v1", "v1", "v2"]).2
          = createdTags (mainRun "r:t" (some ["v3"]) true .present "4.3.2" true (some "sha") ["v2", "v1"]).2
      ∧ deletedTags (mainRun "r:t" (some ["v3", "v3"]) true .present "4.3.2" true (some "sha") ["v1", "v1", "v2"]).2
          = deletedTags (mainRun "r:t" (some ["v3"]) true .present "4.3.2" true (some "sha") ["v2", "v1"]).2) :=
  ⟨by decide, by decide,
    c9_set_semantics.1 "r:t" "4.3.2" "sha" true ["v1", "v1", "v2"] ["v2", "v1"]
      ["v3", "v3"] ["v3"] (by decide) (by decide)⟩

/-- C10: on the reconciliation path the set of added tags and the set of
removed tags are disjoint, and a tag that is both current and requested is
neither added nor removed, in either mode. -/
theorem c10_frame (n v d : String) (ap : Bool) (ts c : List String)
    (hv : pyStrLt v "4.3.2" = false) (hts : ts ≠ []) :
    createdTags (mainRun n (some ts) ap .present v true (some d) c).2
        ∩ deletedTags (mainRun n (some ts) ap .present v true (some d) c).2 = ∅
    ∧ (c.toFinset ∩ ts.toFinset)
        ∩ createdTags (mainRun n (some ts) ap .present v true (some d) c).2 = ∅
    ∧ (c.toFinset ∩ ts.toFinset)
        ∩ deletedTags (mainRun n (some ts) ap .present v true (some d) c).2 = ∅ := by
  have hts2 : ts.isEmpty = false := by
    cases ts
    · exact absurd rfl hts
    · rfl
  rw [mainRun_reconcile n ts ap v d c hv hts2]
  cases ap
  · simp only [Bool.false_eq_true, if_false, createdTags_append,
      createdTags_createList, createdTags_deleteList, deletedTags_append,
      deletedTags_createList, deletedTags_deleteList, toFinset_tags_to_add,
      toFinset_tags_to_remove, Finset.union_empty, Finset.empty_union]
    exact ⟨sdiff_inter_sdiff_empty c.toFinset ts.toFinset,
      inter_inter_sdiff_right_empty c.toFinset ts.toFinset,
      inter_inter_sdiff_left_empty c.toFinset ts.toFinset⟩
  · simp only [if_true, createdTags_createList, deletedTags_createList,
      toFinset_tags_to_add, Finset.inter_empty]
    exact ⟨trivial, inter_inter_sdiff_right_empty c.toFinset ts.toFinset, trivial⟩

/-- C10 (witness): `current = {v1, v2}`, `requested = [v2, v3]`,
`append = false`. -/
theorem c10_frame_witness :
    pyStrLt "4.3.2" "4.3.2" = false ∧ (["v2", "v3"] : List String) ≠ []
    ∧ (createdTags (mainRun "r:t" (some ["v2", "v3"]) false .present "4.3.2" true (some "sha") ["v1", "v2"]).2
          ∩ deletedTags (mainRun "r:t" (some ["v2", "v3"]) false .present "4.3.2" true (some "sha") ["v1", "v2"]).2 = ∅
      ∧ ((["v1", "v2"] : List String).toFinset ∩ (["v2", "v3"] : List String).toFinset)
          ∩ createdTags (mainRun "r:t" (some ["v2", "v3"]) false .present "4.3.2" true (some "sha") ["v1", "v2"]).2 = ∅
      ∧ ((["v1", "v2"] : List String).toFinset ∩ (["v2", "v3"] : List String).toFinset)
          ∩ deletedTags (mainRun "r:t" (some ["v2", "v3"]) false .present "4.3.2" true (some "sha") ["v1", "v2"]).2 = ∅) :=
  ⟨by decide, by decide,
    c10_frame "r:t" "4.3.2" "sha" false ["v2", "v3"] ["v1", "v2"]
      (by decide) (by decide)⟩

example : pyRsplitColon "a:b:c" = ["a:b", "c"] := by decide
example : pyRsplitColon "abc" = ["abc"] := by decide
example : pyRsplitColon ":v1" = ["", "v1"] := by decide
example : ahName ":v1" = "" := by decide
example : ahTag "abc" = "latest" := by decide
example : pyStrLt "4.10.0" "4.3.2" = true := by decide
example : pyStrLt "4.3.2" "4.3.2" = false := by decide
example : specVersionLt (versionNums "4.3.2") (versionNums "4.10.0") = true := by decide
example :
    mainRun "r:t" (some ["V1"]) false .present "4.3.2" true (some "d") ["v1"] =
      (.exitJson "r" "t" true, [.createTag "d" "V1", .deleteTag "d" "v1"]) := by decide

end AhEeImage
